import Mathlib

/-!
Verification development for the Google Play Store review-collection engine
of the Ethiopian bank review analysis project.

The embedded code is `PlayStoreScraper` from `src/data_collection.py`:
`get_app_info`, `scrape_reviews`, `process_reviews`, `scrape_all_banks`,
together with the quality gate `validate_data_quality` (whose implementation
module `src/utils.py` is absent from the repository and is therefore modelled
from the specification and its unit test).

Upstream effects are embedded as oracles: a probe oracle answers the `app()`
metadata call, a fetch oracle answers the `reviews()` call (per attempt
index).  Wall-clock time is embedded as an explicit counter that advances
only on `time.sleep` calls; every upstream call and sleep is recorded in an
event trace carrying its timestamp, so retry counts, backoff and inter-call
spacing are stated over the trace.
-/

/-- Raw review dictionary as returned by the upstream `reviews()` call.
Every field is optional, mirroring `review.get(key, default)` access. -/
structure RawReview where
  reviewId : Option String
  content : Option String
  score : Option Int
  at_ : Option Nat
  userName : Option String
  thumbsUpCount : Option Int
  replyContent : Option String
  reviewCreatedVersion : Option String
deriving DecidableEq, Repr

/-- Canonical processed record built by `process_reviews` (one row of the
tabular export). -/
structure Record where
  review_id : String
  review_text : String
  rating : Int
  review_date : Nat
  user_name : String
  thumbs_up : Int
  reply_content : Option String
  bank_code : String
  bank_name : String
  app_id : String
  source : String
deriving DecidableEq, Repr

/-- Raw app metadata dictionary as returned by the upstream `app()` call. -/
structure AppInfoRaw where
  title : Option String
  score : Option Int
  ratings : Option Int
  reviews : Option Int
  installs : Option String
deriving DecidableEq, Repr

/-- App metadata dictionary built by `get_app_info` (before the bank fields
are added by `scrape_all_banks`). -/
structure AppInfoBase where
  app_id : String
  title : String
  score : Int
  ratings : Int
  reviews : Int
  installs : String
deriving DecidableEq, Repr

/-- App metadata row after `scrape_all_banks` adds `bank_code` and
`bank_name`. -/
structure AppInfoRow where
  app_id : String
  title : String
  score : Int
  ratings : Int
  reviews : Int
  installs : String
  bank_code : String
  bank_name : String
deriving DecidableEq, Repr

/-- One observable step of a run: an `app()` probe, a `reviews()` page
request (with its attempt index and success flag), or a `time.sleep`.
Each event carries the clock value at which it happens; the clock advances
only on sleeps. -/
inductive Event where
  | probe (appId : String) (ok : Bool) (t : Nat)
  | fetch (appId : String) (attempt : Nat) (ok : Bool) (t : Nat)
  | sleep (secs : Nat) (t : Nat)
deriving DecidableEq, Repr

/-- Oracle answering the upstream `app()` call: `none` means the call raised. -/
def ProbeOracle : Type := String → Option AppInfoRaw

/-- Oracle answering the upstream `reviews()` call, keyed by app id, requested
count and attempt index; `none` means the call raised.  A successful answer is
the page of raw reviews together with the continuation token (which the code
discards). -/
def FetchOracle : Type := String → Nat → Nat → Option (List RawReview × Option String)

/-- Body of the loop in `process_reviews` (`src/data_collection.py` lines
97-110): normalization of one raw review dictionary into a record, with the
literal defaults of each `review.get` call.  `names` is `self.bank_names`
and `now` is the value of `datetime.now()`. -/
def processOne (names : String → String) (now : Nat) (bank_code : String)
    (review : RawReview) : Record :=
  { review_id := review.reviewId.getD ""
    review_text := review.content.getD ""
    rating := review.score.getD 0
    review_date := review.at_.getD now
    user_name := review.userName.getD "Anonymous"
    thumbs_up := review.thumbsUpCount.getD 0
    reply_content := review.replyContent
    bank_code := bank_code
    bank_name := names bank_code
    app_id := review.reviewCreatedVersion.getD "N/A"
    source := "Google Play" }

/-- `PlayStoreScraper.process_reviews` (`src/data_collection.py` lines
90-112): starts from an empty list and appends one processed record per raw
review, in loop order. -/
def process_reviews (names : String → String) (now : Nat)
    (reviews_data : List RawReview) (bank_code : String) : List Record :=
  reviews_data.foldl (fun processed review =>
    processed ++ [processOne names now bank_code review]) []

/-- `PlayStoreScraper.get_app_info` (`src/data_collection.py` lines 35-52):
returns the metadata dictionary on success, `None` when the `app()` call
raises. -/
def get_app_info (probe : ProbeOracle) (app_id : String) : Option AppInfoBase :=
  match probe app_id with
  | some result =>
      some { app_id := app_id
             title := result.title.getD "N/A"
             score := result.score.getD 0
             ratings := result.ratings.getD 0
             reviews := result.reviews.getD 0
             installs := result.installs.getD "N/A" }
  | none => none

/-- Retry loop of `PlayStoreScraper.scrape_reviews` (`src/data_collection.py`
lines 63-86), indexed by the current attempt number and the number of
attempts still allowed.  On success the page is returned at once (the
continuation token is discarded); on failure a 5-second sleep precedes the
next attempt, and exhausting the attempts yields the empty list. -/
def scrapeLoop (f : Nat → Option (List RawReview × Option String))
    (appId : String) : Nat → Nat → Nat → List RawReview × List Event × Nat
  | _attempt, 0, t => ([], [], t)
  | attempt, remaining + 1, t =>
      match f attempt with
      | some (result, _token) => (result, [Event.fetch appId attempt true t], t)
      | none =>
          if remaining > 0 then
            let rec' := scrapeLoop f appId (attempt + 1) remaining (t + 5)
            (rec'.1, Event.fetch appId attempt false t :: Event.sleep 5 t :: rec'.2.1,
              rec'.2.2)
          else
            ([], [Event.fetch appId attempt false t], t)

/-- `PlayStoreScraper.scrape_reviews` (`src/data_collection.py` lines 54-88):
up to `max_retries` attempts of the single `reviews()` call, starting at
attempt 0 with clock `t`.  Returns the page (or `[]`), the event trace and
the final clock. -/
def scrape_reviews (fetch : FetchOracle) (app_id : String) (count max_retries t : Nat) :
    List RawReview × List Event × Nat :=
  scrapeLoop (fun attempt => fetch app_id count attempt) app_id 0 max_retries t

/-- App-info row construction of phase 1: the bank fields are added to the
dictionary returned by `get_app_info` (lines 137-139 of
`src/data_collection.py`). -/
def app_info_row (names : String → String) (bank_code : String)
    (info : AppInfoBase) : AppInfoRow :=
  { app_id := info.app_id, title := info.title, score := info.score,
    ratings := info.ratings, reviews := info.reviews,
    installs := info.installs, bank_code := bank_code,
    bank_name := names bank_code }

/-- Phase 1 of `PlayStoreScraper.scrape_all_banks` (`src/data_collection.py`
lines 130-144): probe each configured bank in order; a successful probe
appends the metadata row via `app_info_row`, a failing probe is skipped.
No sleeps occur, so the clock does not advance. -/
def appInfoPhase (probe : ProbeOracle) (names : String → String) :
    List (String × String) → Nat → List AppInfoRow × List Event × Nat
  | [], t => ([], [], t)
  | (bank_code, app_id) :: rest, t =>
      let evt := Event.probe app_id (probe app_id).isSome t
      let tail := appInfoPhase probe names rest t
      match get_app_info probe app_id with
      | some info => (app_info_row names bank_code info :: tail.1,
                      evt :: tail.2.1, tail.2.2)
      | none => (tail.1, evt :: tail.2.1, tail.2.2)

/-- Phase 2 of `PlayStoreScraper.scrape_all_banks` (`src/data_collection.py`
lines 152-168): for each bank in order, fetch its reviews via
`scrape_reviews`, process them when the result is non-empty, and sleep 2
seconds before moving to the next bank. -/
def reviewPhase (fetch : FetchOracle) (names : String → String)
    (now reviews_per_bank max_retries : Nat) :
    List (String × String) → Nat → List Record × List Event × Nat
  | [], t => ([], [], t)
  | (bank_code, app_id) :: rest, t =>
      let r := scrape_reviews fetch app_id reviews_per_bank max_retries t
      let processed :=
        if r.1.isEmpty then [] else process_reviews names now r.1 bank_code
      let tail := reviewPhase fetch names now reviews_per_bank max_retries rest (r.2.2 + 2)
      (processed ++ tail.1, r.2.1 ++ Event.sleep 2 r.2.2 :: tail.2.1, tail.2.2)

/-- `PlayStoreScraper.scrape_all_banks` (`src/data_collection.py` lines
114-194): phase 1 gathers app metadata, phase 2 scrapes and merges all
reviews; an empty merged list yields the empty DataFrame.  Returns the
metadata rows, the merged records, the full event trace and the final
clock. -/
def scrape_all_banks (probe : ProbeOracle) (fetch : FetchOracle)
    (names : String → String) (now : Nat) (banks : List (String × String))
    (reviews_per_bank max_retries t : Nat) :
    List AppInfoRow × List Record × List Event × Nat :=
  let p1 := appInfoPhase probe names banks t
  let p2 := reviewPhase fetch names now reviews_per_bank max_retries banks p1.2.2
  (p1.1, if p2.1.isEmpty then [] else p2.1, p1.2.1 ++ p2.2.1, p2.2.2)

/-- Whether an event is a `reviews()` page request (successful or not). -/
def isFetch : Event → Bool
  | Event.fetch _ _ _ _ => true
  | _ => false

/-- Whether an event is a successful `reviews()` page request. -/
def isFetchOk : Event → Bool
  | Event.fetch _ _ true _ => true
  | _ => false

/-- Whether an event is a page request for the given app id. -/
def isFetchFor (a : String) : Event → Bool
  | Event.fetch appId _ _ _ => appId == a
  | _ => false

/-- Number of page requests in a trace. -/
def countFetches (tr : List Event) : Nat := tr.countP isFetch

/-- Clock value at which an event happens. -/
def timeOf : Event → Nat
  | Event.probe _ _ t => t
  | Event.fetch _ _ _ t => t
  | Event.sleep _ t => t

/-- Timestamps of the successful upstream calls of a trace, in trace order. -/
def successTimes (tr : List Event) : List Nat :=
  tr.filterMap fun e =>
    match e with
    | Event.probe _ true t => some t
    | Event.fetch _ _ true t => some t
    | _ => none

/-- The shared minimum-interval property claimed by the specification: any
two consecutive successful upstream calls are at least `d` seconds apart. -/
def minGapOK (d : Nat) (tr : List Event) : Prop :=
  List.Chain' (fun a b => a + d ≤ b) (successTimes tr)

instance (d : Nat) (tr : List Event) : Decidable (minGapOK d tr) :=
  inferInstanceAs (Decidable (List.Chain' _ _))

/-- Metrics map emitted by the quality gate: per-entity counts, the
missing-text percentage, and the boolean outcome. -/
structure QualityMetrics where
  per_entity : List (String × Nat)
  missing_text_percentage : ℚ
  passed : Bool
deriving DecidableEq, Repr

/-- Number of records of the aggregate set whose text is empty/missing. -/
def missingCount (records : List Record) : Nat :=
  records.countP fun r => r.review_text == ""

/-- Percentage of the aggregate record set with empty/missing text
(0 when the set is empty). -/
def missing_text_pct (records : List Record) : ℚ :=
  if records.length = 0 then 0
  else (100 * (missingCount records : ℚ)) / (records.length : ℚ)

/-- Modelled from the spec: `validate_data_quality` lives in `src/utils.py`,
which is absent from the repository (only `main.py`, `run_analysis.py` and
`tests/test_data_collection.py` call it).  Following spec section 4.5 and the
signature and cases of `TestDataCollection.test_data_quality_validation`, the
gate checks the collected count against `min_reviews` and the global
missing-text percentage against `max_missing_pct`, and returns a boolean plus
the metrics map; it performs no control-flow abort. -/
def validate_data_quality (banks : List String) (records : List Record)
    (min_reviews : Nat) (max_missing_pct : ℚ) : Bool × QualityMetrics :=
  let pct := missing_text_pct records
  let ok := min_reviews ≤ records.length ∧ pct ≤ max_missing_pct
  let okB : Bool := decide ok
  (okB,
   { per_entity := banks.map fun b =>
       (b, records.countP fun r => r.bank_code == b)
     missing_text_percentage := pct
     passed := okB })

/-- Modelled from the spec: the data-collection phase of
`EthiopianBankAnalysis._run_data_collection_phase` (`main.py` lines 100-125)
around the absent `utils.validate_data_quality` — the gate outcome is stored
in the phase metrics, and the collected records are saved and returned
whatever the outcome is. -/
def run_data_collection_phase (banks : List String) (records : List Record)
    (min_reviews : Nat) (max_missing_pct : ℚ) : List Record × Bool × QualityMetrics :=
  let gate := validate_data_quality banks records min_reviews max_missing_pct
  (records, gate.1, gate.2)

/-- Concrete raw review used by witnesses: all fields present and in range. -/
def sampleReview : RawReview :=
  { reviewId := some "r1"
    content := some "good"
    score := some 4
    at_ := some 7
    userName := some "u"
    thumbsUpCount := some 1
    replyContent := none
    reviewCreatedVersion := some "1.2" }

/-- Concrete record with non-empty text, used by quality-gate witnesses. -/
def sampleRecord : Record :=
  { review_id := "r1"
    review_text := "good app"
    rating := 4
    review_date := 7
    user_name := "u"
    thumbs_up := 1
    reply_content := none
    bank_code := "cbe"
    bank_name := "Commercial Bank of Ethiopia"
    app_id := "1.2"
    source := "Google Play" }

/-- Concrete record with empty (missing) text, used by quality-gate
witnesses. -/
def sampleMissingRecord : Record :=
  { review_id := "r2"
    review_text := ""
    rating := 1
    review_date := 7
    user_name := "v"
    thumbs_up := 0
    reply_content := none
    bank_code := "cbe"
    bank_name := "Commercial Bank of Ethiopia"
    app_id := "1.2"
    source := "Google Play" }

/-- Aggregate of 25 records of which 3 have missing text: a 12 percent
missing-text fraction. -/
def sampleQGRecords : List Record :=
  List.replicate 22 sampleRecord ++ List.replicate 3 sampleMissingRecord

/-! ### Helper lemmas -/

/-- The append-accumulating loop of `process_reviews` is a `map`. -/
theorem process_reviews_eq_map (names : String → String) (now : Nat)
    (reviews_data : List RawReview) (bank_code : String) :
    process_reviews names now reviews_data bank_code
      = reviews_data.map (processOne names now bank_code) := by
  suffices h : ∀ (l : List RawReview) (acc : List Record),
      l.foldl (fun processed review =>
        processed ++ [processOne names now bank_code review]) acc
        = acc ++ l.map (processOne names now bank_code) by
    simpa [process_reviews] using h reviews_data []
  intro l
  induction l with
  | nil => intro acc; simp
  | cons x xs ih => intro acc; simp [List.foldl_cons, ih]

/-- Every record produced by `process_reviews` carries the bank code it was
processed under. -/
theorem process_reviews_bank_code (names : String → String) (now : Nat)
    (reviews_data : List RawReview) (bank_code : String) :
    ∀ r ∈ process_reviews names now reviews_data bank_code,
      r.bank_code = bank_code := by
  intro r hr
  rw [process_reviews_eq_map] at hr
  rcases List.mem_map.1 hr with ⟨x, _, rfl⟩
  rfl

/-- The review page returned by the retry loop does not depend on the clock. -/
theorem scrapeLoop_fst_clock_indep (f : Nat → Option (List RawReview × Option String))
    (appId : String) (attempt remaining t t' : Nat) :
    (scrapeLoop f appId attempt remaining t).1
      = (scrapeLoop f appId attempt remaining t').1 := by
  induction remaining generalizing attempt t t' with
  | zero => rfl
  | succ n ih =>
      simp only [scrapeLoop]
      cases f attempt with
      | some v => rfl
      | none =>
          by_cases h : n > 0
          · simp only [if_pos h]
            exact ih (attempt + 1) (t + 5) (t' + 5)
          · simp only [if_neg h]

@[simp] theorem isFetch_fetch (a : String) (i : Nat) (ok : Bool) (t : Nat) :
    isFetch (Event.fetch a i ok t) = true := rfl

@[simp] theorem isFetch_sleep (s t : Nat) : isFetch (Event.sleep s t) = false := rfl

@[simp] theorem isFetch_probe (a : String) (ok : Bool) (t : Nat) :
    isFetch (Event.probe a ok t) = false := rfl

@[simp] theorem countFetches_nil : countFetches [] = 0 := rfl

@[simp] theorem countFetches_cons_fetch (a : String) (i : Nat) (ok : Bool) (t : Nat)
    (tr : List Event) :
    countFetches (Event.fetch a i ok t :: tr) = countFetches tr + 1 := by
  simp [countFetches, List.countP_cons]

@[simp] theorem countFetches_cons_sleep (s t : Nat) (tr : List Event) :
    countFetches (Event.sleep s t :: tr) = countFetches tr := by
  simp [countFetches, List.countP_cons]

@[simp] theorem countFetches_cons_probe (a : String) (ok : Bool) (t : Nat)
    (tr : List Event) :
    countFetches (Event.probe a ok t :: tr) = countFetches tr := by
  simp [countFetches, List.countP_cons]

theorem countFetches_append (tr1 tr2 : List Event) :
    countFetches (tr1 ++ tr2) = countFetches tr1 + countFetches tr2 := by
  simp [countFetches, List.countP_append]

/-- The retry loop issues at most as many page requests as it has attempts
left. -/
theorem scrapeLoop_countFetches_le (f : Nat → Option (List RawReview × Option String))
    (appId : String) (attempt remaining t : Nat) :
    countFetches (scrapeLoop f appId attempt remaining t).2.1 ≤ remaining := by
  induction remaining generalizing attempt t with
  | zero => simp [scrapeLoop, countFetches]
  | succ n ih =>
      simp only [scrapeLoop]
      cases f attempt with
      | some v =>
          simp [countFetches, List.countP_cons, isFetch]
      | none =>
          by_cases h : n > 0
          · simp only [if_pos h, countFetches_cons_fetch, countFetches_cons_sleep]
            have := ih (attempt + 1) (t + 5)
            omega
          · simp [if_neg h]

/-- Shape of the retry-loop trace: it is empty exactly when no attempt is
allowed, and otherwise starts with a page request at the start clock. -/
theorem scrapeLoop_trace_head (f : Nat → Option (List RawReview × Option String))
    (appId : String) (attempt remaining t : Nat) (h : 0 < remaining) :
    ∃ ok rest, (scrapeLoop f appId attempt remaining t).2.1
      = Event.fetch appId attempt ok t :: rest := by
  cases remaining with
  | zero => omega
  | succ n =>
      simp only [scrapeLoop]
      cases f attempt with
      | some v => exact ⟨true, [], rfl⟩
      | none =>
          by_cases hn : n > 0
          · simp only [if_pos hn]
            exact ⟨false, _, rfl⟩
          · simp only [if_neg hn]
            exact ⟨false, [], rfl⟩

/-- In the retry-loop trace, whenever anything follows a page request, the
next event is a 5-second backoff sleep: a delay is applied before every
retry. -/
theorem scrapeLoop_backoff_after_attempt
    (f : Nat → Option (List RawReview × Option String))
    (appId : String) (attempt remaining t : Nat) :
    List.Chain' (fun a b => isFetch a = true → ∃ u, b = Event.sleep 5 u)
      (scrapeLoop f appId attempt remaining t).2.1 := by
  induction remaining generalizing attempt t with
  | zero => simp [scrapeLoop]
  | succ n ih =>
      simp only [scrapeLoop]
      cases f attempt with
      | some v => simp
      | none =>
          by_cases hn : n > 0
          · simp only [if_pos hn]
            refine List.chain'_cons'.2 ⟨?_, List.chain'_cons'.2 ⟨?_, ih (attempt + 1) (t + 5)⟩⟩
            · intro y hy
              simp only [List.head?_cons, Option.mem_def, Option.some.injEq] at hy
              subst hy
              exact fun _ => ⟨t, rfl⟩
            · intro y hy h5
              simp [isFetch] at h5
          · simp [if_neg hn]

/-- If every attempt fails, the retry loop returns the empty list and uses
every allowed attempt. -/
theorem scrapeLoop_all_fail (f : Nat → Option (List RawReview × Option String))
    (appId : String) (attempt remaining t : Nat)
    (hf : ∀ k, f k = none) :
    (scrapeLoop f appId attempt remaining t).1 = []
      ∧ countFetches (scrapeLoop f appId attempt remaining t).2.1 = remaining := by
  induction remaining generalizing attempt t with
  | zero => simp [scrapeLoop, countFetches]
  | succ n ih =>
      simp only [scrapeLoop, hf attempt]
      by_cases hn : n > 0
      · simp only [if_pos hn]
        have := ih (attempt + 1) (t + 5)
        simp only [countFetches_cons_fetch, countFetches_cons_sleep]
        exact ⟨this.1, by omega⟩
      · interval_cases n
        simp

/-- The clock never moves backwards inside the retry loop. -/
theorem scrapeLoop_clock_mono (f : Nat → Option (List RawReview × Option String))
    (appId : String) (attempt remaining t : Nat) :
    t ≤ (scrapeLoop f appId attempt remaining t).2.2 := by
  induction remaining generalizing attempt t with
  | zero => simp [scrapeLoop]
  | succ n ih =>
      simp only [scrapeLoop]
      cases f attempt with
      | some v => simp
      | none =>
          by_cases hn : n > 0
          · simp only [if_pos hn]
            have := ih (attempt + 1) (t + 5)
            omega
          · simp [if_neg hn]

/-- Every event of the retry-loop trace happens between the start clock and
the final clock. -/
theorem scrapeLoop_time_bounds (f : Nat → Option (List RawReview × Option String))
    (appId : String) (attempt remaining t : Nat) :
    ∀ e ∈ (scrapeLoop f appId attempt remaining t).2.1,
      t ≤ timeOf e ∧ timeOf e ≤ (scrapeLoop f appId attempt remaining t).2.2 := by
  induction remaining generalizing attempt t with
  | zero => simp [scrapeLoop]
  | succ n ih =>
      simp only [scrapeLoop]
      cases f attempt with
      | some v =>
          intro e he
          simp only [List.mem_singleton] at he
          subst he
          simp [timeOf]
      | none =>
          by_cases hn : n > 0
          · simp only [if_pos hn]
            intro e he
            have hmono := scrapeLoop_clock_mono f appId (attempt + 1) n (t + 5)
            rw [List.mem_cons, List.mem_cons] at he
            rcases he with he | he | he
            · subst he; constructor
              · simp [timeOf]
              · simp only [timeOf]; omega
            · subst he; constructor
              · simp [timeOf]
              · simp only [timeOf]; omega
            · have := ih (attempt + 1) (t + 5) e he
              omega
          · simp only [if_neg hn]
            intro e he
            simp only [List.mem_singleton] at he
            subst he
            simp [timeOf]

/-- Phase 1 collects exactly the metadata rows of the banks whose probe
succeeded, in configuration order. -/
theorem appInfoPhase_infos (probe : ProbeOracle) (names : String → String) :
    ∀ (banks : List (String × String)) (t : Nat),
      (appInfoPhase probe names banks t).1
        = banks.filterMap fun b => (get_app_info probe b.2).map (app_info_row names b.1) := by
  intro banks
  induction banks with
  | nil => intro t; rfl
  | cons b rest ih =>
      intro t
      obtain ⟨bank_code, app_id⟩ := b
      simp only [appInfoPhase, List.filterMap_cons]
      cases h : get_app_info probe app_id with
      | some info => simp [h, ih t]
      | none => simp [h, ih t]

/-- Phase 1 performs no sleeps, so it leaves the clock unchanged. -/
theorem appInfoPhase_clock (probe : ProbeOracle) (names : String → String) :
    ∀ (banks : List (String × String)) (t : Nat),
      (appInfoPhase probe names banks t).2.2 = t := by
  intro banks
  induction banks with
  | nil => intro t; rfl
  | cons b rest ih =>
      intro t
      obtain ⟨bank_code, app_id⟩ := b
      simp only [appInfoPhase]
      cases h : get_app_info probe app_id with
      | some info => simp [h, ih t]
      | none => simp [h, ih t]

/-- Review page and processed records contributed by one bank, evaluated at
clock 0 (the page does not depend on the clock). -/
def bank_records (fetch : FetchOracle) (names : String → String)
    (now reviews_per_bank max_retries : Nat) (b : String × String) : List Record :=
  let data := (scrape_reviews fetch b.2 reviews_per_bank max_retries 0).1
  if data.isEmpty then [] else process_reviews names now data b.1

/-- The review page returned by `scrape_reviews` does not depend on the
clock. -/
theorem scrape_reviews_fst_clock_indep (fetch : FetchOracle) (app_id : String)
    (count max_retries t : Nat) :
    (scrape_reviews fetch app_id count max_retries t).1
      = (scrape_reviews fetch app_id count max_retries 0).1 :=
  scrapeLoop_fst_clock_indep _ app_id 0 max_retries t 0

/-- Phase 2 merges, in configuration order, exactly each bank's own processed
records; each bank's contribution is a function of that bank's app id
alone. -/
theorem reviewPhase_records (fetch : FetchOracle) (names : String → String)
    (now reviews_per_bank max_retries : Nat) :
    ∀ (banks : List (String × String)) (t : Nat),
      (reviewPhase fetch names now reviews_per_bank max_retries banks t).1
        = (banks.map (bank_records fetch names now reviews_per_bank max_retries)).flatten := by
  intro banks
  induction banks with
  | nil => intro t; rfl
  | cons b rest ih =>
      intro t
      obtain ⟨bank_code, app_id⟩ := b
      simp only [reviewPhase, List.map_cons, List.flatten_cons]
      rw [ih]
      simp only [bank_records]
      rw [scrape_reviews_fst_clock_indep fetch app_id reviews_per_bank max_retries t]

/-- The clock never moves backwards across phase 2. -/
theorem reviewPhase_clock_mono (fetch : FetchOracle) (names : String → String)
    (now reviews_per_bank max_retries : Nat) :
    ∀ (banks : List (String × String)) (t : Nat),
      t ≤ (reviewPhase fetch names now reviews_per_bank max_retries banks t).2.2 := by
  intro banks
  induction banks with
  | nil => intro t; exact Nat.le_refl t
  | cons b rest ih =>
      intro t
      obtain ⟨bank_code, app_id⟩ := b
      simp only [reviewPhase]
      have h1 := scrapeLoop_clock_mono (fun a => fetch app_id reviews_per_bank a)
        app_id 0 max_retries t
      have h2 := ih ((scrape_reviews fetch app_id reviews_per_bank max_retries t).2.2 + 2)
      simp only [scrape_reviews] at h2 ⊢
      omega

/-- No phase-2 event happens before the phase's start clock. -/
theorem reviewPhase_time_lb (fetch : FetchOracle) (names : String → String)
    (now reviews_per_bank max_retries : Nat) :
    ∀ (banks : List (String × String)) (t : Nat),
      ∀ e ∈ (reviewPhase fetch names now reviews_per_bank max_retries banks t).2.1,
        t ≤ timeOf e := by
  intro banks
  induction banks with
  | nil => intro t e he; simp [reviewPhase] at he
  | cons b rest ih =>
      intro t e he
      obtain ⟨bank_code, app_id⟩ := b
      simp only [reviewPhase] at he
      have hmono := scrapeLoop_clock_mono (fun a => fetch app_id reviews_per_bank a)
        app_id 0 max_retries t
      rw [List.mem_append] at he
      rcases he with he | he
      · exact (scrapeLoop_time_bounds _ app_id 0 max_retries t e he).1
      · rw [List.mem_cons] at he
        rcases he with he | he
        · subst he
          simpa [timeOf, scrape_reviews] using hmono
        · have := ih ((scrape_reviews fetch app_id reviews_per_bank max_retries t).2.2 + 2) e he
          simp only [scrape_reviews] at this hmono
          omega

/-- When at least one attempt is allowed, phase 2 issues a first-attempt page
request for every configured bank. -/
theorem reviewPhase_fetch_mem (fetch : FetchOracle) (names : String → String)
    (now reviews_per_bank max_retries : Nat) (hmr : 0 < max_retries) :
    ∀ (banks : List (String × String)) (t : Nat), ∀ b ∈ banks,
      ∃ ok t', Event.fetch b.2 0 ok t'
        ∈ (reviewPhase fetch names now reviews_per_bank max_retries banks t).2.1 := by
  intro banks
  induction banks with
  | nil => intro t b hb; simp at hb
  | cons hd rest ih =>
      intro t b hb
      obtain ⟨bank_code, app_id⟩ := hd
      rw [List.mem_cons] at hb
      rcases hb with hb | hb
      · subst hb
        obtain ⟨ok, tr, htr⟩ := scrapeLoop_trace_head
          (fun a => fetch app_id reviews_per_bank a) app_id 0 max_retries t hmr
        refine ⟨ok, t, ?_⟩
        simp only [reviewPhase, scrape_reviews, List.mem_append, List.mem_cons]
        rw [htr]
        exact Or.inl (List.mem_cons_self _ _)
      · obtain ⟨ok, t', hmem⟩ := ih
          ((scrape_reviews fetch app_id reviews_per_bank max_retries t).2.2 + 2) b hb
        refine ⟨ok, t', ?_⟩
        simp only [reviewPhase, List.mem_append, List.mem_cons]
        exact Or.inr (Or.inr hmem)

/-- The empty-result guard of `scrape_all_banks` is the identity on the
merged list. -/
theorem ite_isEmpty_eq (l : List Record) : (if l.isEmpty then [] else l) = l := by
  cases l <;> simp

/-- Record ids contributed by one bank are exactly the raw stream's ids with
the literal default of the `reviewId` access, in stream order. -/
theorem bank_records_ids (fetch : FetchOracle) (names : String → String)
    (now reviews_per_bank max_retries : Nat) (b : String × String) :
    (bank_records fetch names now reviews_per_bank max_retries b).map (fun r => r.review_id)
      = (scrape_reviews fetch b.2 reviews_per_bank max_retries 0).1.map
          (fun r => r.reviewId.getD "") := by
  unfold bank_records
  cases hdata : (scrape_reviews fetch b.2 reviews_per_bank max_retries 0).1 with
  | nil => simp
  | cons x xs =>
      simp only [List.isEmpty_cons, if_neg Bool.false_ne_true]
      rw [process_reviews_eq_map]
      simp [processOne]

/-- Every record contributed by one bank carries that bank's code. -/
theorem bank_records_code (fetch : FetchOracle) (names : String → String)
    (now reviews_per_bank max_retries : Nat) (b : String × String) :
    ∀ r ∈ bank_records fetch names now reviews_per_bank max_retries b,
      r.bank_code = b.1 := by
  intro r hr
  unfold bank_records at hr
  by_cases h : (scrape_reviews fetch b.2 reviews_per_bank max_retries 0).1.isEmpty
  · simp [h] at hr
  · simp only [if_neg h] at hr
    exact process_reviews_bank_code _ _ _ _ r hr

/-- Records of banks whose code differs from `c` never survive the filter
on `c`. -/
theorem filter_flatten_bank_records_nil (fetch : FetchOracle) (names : String → String)
    (now reviews_per_bank max_retries : Nat) (c : String) :
    ∀ (banks : List (String × String)), c ∉ banks.map Prod.fst →
      ((banks.map (bank_records fetch names now reviews_per_bank max_retries)).flatten.filter
        (fun r => r.bank_code == c)) = [] := by
  intro banks
  induction banks with
  | nil => intro _; rfl
  | cons hd rest ih =>
      intro hc
      simp only [List.map_cons, List.mem_cons] at hc
      push_neg at hc
      simp only [List.map_cons, List.flatten_cons, List.filter_append]
      rw [ih hc.2, List.filter_eq_nil_iff.2, List.nil_append]
      intro r hr
      have := bank_records_code fetch names now reviews_per_bank max_retries hd r hr
      simp [this, hc.1.symm]

/-- Filtering the merged phase-2 records on a bank code yields exactly that
bank's own contribution, provided bank codes are distinct. -/
theorem filter_flatten_bank_records (fetch : FetchOracle) (names : String → String)
    (now reviews_per_bank max_retries : Nat) (bank_code app_id : String) :
    ∀ (banks : List (String × String)), (bank_code, app_id) ∈ banks →
      (banks.map Prod.fst).Nodup →
      ((banks.map (bank_records fetch names now reviews_per_bank max_retries)).flatten.filter
        (fun r => r.bank_code == bank_code))
        = bank_records fetch names now reviews_per_bank max_retries (bank_code, app_id) := by
  intro banks
  induction banks with
  | nil => intro hmem; simp at hmem
  | cons hd rest ih =>
      intro hmem hnd
      simp only [List.map_cons, List.nodup_cons] at hnd
      rw [List.mem_cons] at hmem
      simp only [List.map_cons, List.flatten_cons, List.filter_append]
      rcases hmem with hmem | hmem
      · subst hmem
        rw [filter_flatten_bank_records_nil fetch names now reviews_per_bank max_retries
            bank_code rest hnd.1]
        rw [List.append_nil]
        apply List.filter_eq_self.2
        intro r hr
        have := bank_records_code fetch names now reviews_per_bank max_retries
          (bank_code, app_id) r hr
        simp [this]
      · have hcode : bank_code ∈ rest.map Prod.fst :=
          List.mem_map.2 ⟨(bank_code, app_id), hmem, rfl⟩
        have hne : hd.1 ≠ bank_code := by
          intro h
          exact hnd.1 (h ▸ hcode)
        rw [ih hmem hnd.2]
        have hnilhd : ((bank_records fetch names now reviews_per_bank max_retries hd).filter
            (fun r => r.bank_code == bank_code)) = [] := by
          apply List.filter_eq_nil_iff.2
          intro r hr
          have := bank_records_code fetch names now reviews_per_bank max_retries hd r hr
          simp [this, hne]
        rw [hnilhd, List.nil_append]

/-! ### Claim theorems -/

/-- C9 (confirmed): for every list of raw review dictionaries and every bank
code, `process_reviews` returns a list containing exactly one processed
record per input review, in the same order as the input, performing no
filtering and no deduplication. -/
theorem process_reviews_one_per_input (names : String → String) (now : Nat)
    (reviews_data : List RawReview) (bank_code : String) :
    process_reviews names now reviews_data bank_code
      = reviews_data.map (processOne names now bank_code)
    ∧ (process_reviews names now reviews_data bank_code).length
        = reviews_data.length := by
  constructor
  · exact process_reviews_eq_map names now reviews_data bank_code
  · rw [process_reviews_eq_map]
    exact List.length_map reviews_data _

/-- C10 (confirmed): the `app_id` field of every record produced by
`process_reviews` equals the raw review's `reviewCreatedVersion` value with
default "N/A"; the Play-Store application identifier the reviews were
fetched from is not even an input of `process_reviews`. -/
theorem record_app_id_is_review_version (names : String → String) (now : Nat)
    (reviews_data : List RawReview) (bank_code : String) :
    (process_reviews names now reviews_data bank_code).map (fun r => r.app_id)
      = reviews_data.map (fun r => r.reviewCreatedVersion.getD "N/A") := by
  rw [process_reviews_eq_map, List.map_map]
  rfl

/-- C8 counterexample: a raw review whose `score` key is absent is exported
with `rating = 0`, which is not in the range 1 to 5, refuting the claim that
every exported record has an integer rating in 1..5. -/
theorem rating_out_of_range_on_missing_score :
    ((process_reviews (fun _ => "Commercial Bank of Ethiopia") 0
        [{ reviewId := some "r1", content := some "good", score := none,
           at_ := some 7, userName := none, thumbsUpCount := none,
           replyContent := none, reviewCreatedVersion := none }]
        "cbe").map fun r => r.rating) = [0]
    ∧ ¬ (1 ≤ (0 : Int) ∧ (0 : Int) ≤ 5) := by
  constructor
  · rfl
  · decide

/-- C8 amended: the export columns are raw pass-through values with literal
defaults — `rating` is the raw score with default 0, `thumbs_up` (upvotes)
is the raw count with default 0, and `reply_content` (reply text) is the raw
nullable reply; consequently `rating` lies in 1..5 and `thumbs_up` is
non-negative exactly when the raw values are, and nothing enforces the
ranges when they are not. -/
theorem export_columns_passthrough (names : String → String) (now : Nat)
    (reviews_data : List RawReview) (bank_code : String) :
    ((process_reviews names now reviews_data bank_code).map fun r =>
        (r.rating, r.thumbs_up, r.reply_content))
      = reviews_data.map (fun r => (r.score.getD 0, r.thumbsUpCount.getD 0, r.replyContent))
    ∧ ((∀ r ∈ reviews_data,
          1 ≤ r.score.getD 0 ∧ r.score.getD 0 ≤ 5 ∧ 0 ≤ r.thumbsUpCount.getD 0) →
        ∀ rec ∈ process_reviews names now reviews_data bank_code,
          1 ≤ rec.rating ∧ rec.rating ≤ 5 ∧ 0 ≤ rec.thumbs_up) := by
  constructor
  · rw [process_reviews_eq_map, List.map_map]
    rfl
  · intro h rec hrec
    rw [process_reviews_eq_map] at hrec
    rcases List.mem_map.1 hrec with ⟨x, hx, rfl⟩
    exact h x hx

/-- Witness for the amended C8 theorem at a concrete in-range input. -/
theorem export_columns_passthrough_witness :
    ∀ rec ∈ process_reviews (fun _ => "Commercial Bank of Ethiopia") 0
        [{ reviewId := some "r1", content := some "good", score := some 5,
           at_ := some 7, userName := some "u", thumbsUpCount := some 3,
           replyContent := none, reviewCreatedVersion := some "1.2" }] "cbe",
      1 ≤ rec.rating ∧ rec.rating ≤ 5 ∧ 0 ≤ rec.thumbs_up := by
  have h := export_columns_passthrough (fun _ => "Commercial Bank of Ethiopia") 0
    [{ reviewId := some "r1", content := some "good", score := some 5,
       at_ := some 7, userName := some "u", thumbsUpCount := some 3,
       replyContent := none, reviewCreatedVersion := some "1.2" }] "cbe"
  exact h.2 (by decide)

/-- C3 (confirmed): each call of `scrape_reviews` issues at most
`max_retries` page requests; whenever an attempt is not the last event of
the call, it is immediately followed by a 5-second backoff sleep; and when
every attempt fails, the call returns the empty list after exactly
`max_retries` attempts instead of raising. -/
theorem scrape_reviews_retry_policy (fetch : FetchOracle) (app_id : String)
    (count max_retries t : Nat) :
    countFetches (scrape_reviews fetch app_id count max_retries t).2.1 ≤ max_retries
    ∧ List.Chain' (fun a b => isFetch a = true → ∃ u, b = Event.sleep 5 u)
        (scrape_reviews fetch app_id count max_retries t).2.1
    ∧ ((∀ k, fetch app_id count k = none) →
        (scrape_reviews fetch app_id count max_retries t).1 = []
        ∧ countFetches (scrape_reviews fetch app_id count max_retries t).2.1
            = max_retries) := by
  refine ⟨?_, ?_, ?_⟩
  · exact scrapeLoop_countFetches_le _ app_id 0 max_retries t
  · exact scrapeLoop_backoff_after_attempt _ app_id 0 max_retries t
  · intro hf
    exact scrapeLoop_all_fail _ app_id 0 max_retries t (fun k => hf k)

/-- Witness for the C3 theorem: with an always-failing oracle and three
allowed attempts, the call returns the empty list after exactly three
attempts. -/
theorem scrape_reviews_retry_policy_witness :
    (scrape_reviews (fun _ _ _ => none) "com.cbe.mobile" 400 3 0).1 = []
    ∧ countFetches (scrape_reviews (fun _ _ _ => none) "com.cbe.mobile" 400 3 0).2.1 = 3 := by
  have h := scrape_reviews_retry_policy (fun _ _ _ => none) "com.cbe.mobile" 400 3 0
  exact h.2.2 (fun k => rfl)

/-- C5 counterexample: with a target of 0 the running unique count (0)
already meets the target, yet `scrape_reviews` still issues a page request —
the code never consults the target before its single request. -/
theorem page_request_despite_target_met :
    ¬ countFetches (scrape_reviews (fun _ _ _ => some ([], none))
        "com.cbe.mobile" 0 3 0).2.1 = 0 := by
  decide

/-- C5 amended: `scrape_reviews` issues exactly one page request per
successful call and stops unconditionally after the first successful page,
discarding the continuation token: whatever page and token the upstream
returns — non-null token, empty or non-empty page, any count — no further
page request follows. -/
theorem single_page_per_successful_call (fetch : FetchOracle) (app_id : String)
    (count max_retries t : Nat) (page : List RawReview) (token : Option String)
    (hmr : 0 < max_retries) (hf : fetch app_id count 0 = some (page, token)) :
    (scrape_reviews fetch app_id count max_retries t).1 = page
    ∧ (scrape_reviews fetch app_id count max_retries t).2.1
        = [Event.fetch app_id 0 true t] := by
  cases max_retries with
  | zero => omega
  | succ n => simp [scrape_reviews, scrapeLoop, hf]

/-- Witness for the amended C5 theorem: a non-empty page with a non-null
continuation token still yields a single page request. -/
theorem single_page_per_successful_call_witness :
    (scrape_reviews (fun _ _ _ => some ([sampleReview], some "token"))
      "com.cbe.mobile" 400 3 0).2.1 = [Event.fetch "com.cbe.mobile" 0 true 0] := by
  have h := single_page_per_successful_call
    (fun _ _ _ => some ([sampleReview], some "token"))
    "com.cbe.mobile" 400 3 0 [sampleReview] (some "token") (by decide) rfl
  exact h.2

/-- C1 counterexample: a raw stream delivering the same review id twice
yields a final merged collection containing that id twice — no seen-id set
exists anywhere in the pipeline, refuting uniqueness of record ids in an
entity's final set. -/
theorem merged_records_contain_duplicate_ids :
    ¬ ((scrape_all_banks (fun _ => none)
        (fun _ _ _ => some ([sampleReview, sampleReview], none))
        (fun _ => "Commercial Bank of Ethiopia") 0
        [("cbe", "com.cbe.mobile")] 400 3 0).2.1.map
          (fun r => r.review_id)).Nodup := by
  decide

/-- C1 amended: the merger performs no deduplication at all — the review ids
of the final merged collection are exactly the concatenation of each bank's
raw-stream ids in first-seen (stream) order, so a duplicate upstream id
appears as many times as delivered and ids are unique only when the upstream
streams are. -/
theorem merged_record_ids_match_raw_stream (probe : ProbeOracle) (fetch : FetchOracle)
    (names : String → String) (now : Nat) (banks : List (String × String))
    (reviews_per_bank max_retries t : Nat) :
    (scrape_all_banks probe fetch names now banks reviews_per_bank max_retries t).2.1.map
        (fun r => r.review_id)
      = (banks.map fun b =>
          (scrape_reviews fetch b.2 reviews_per_bank max_retries 0).1.map
            (fun r => r.reviewId.getD "")).flatten := by
  simp only [scrape_all_banks]
  rw [ite_isEmpty_eq, reviewPhase_records, List.map_flatten, List.map_map]
  have hfun : (List.map (fun r => r.review_id)
        ∘ bank_records fetch names now reviews_per_bank max_retries)
      = fun b => (scrape_reviews fetch b.2 reviews_per_bank max_retries 0).1.map
          (fun r => r.reviewId.getD "") :=
    funext fun b => bank_records_ids fetch names now reviews_per_bank max_retries b
  rw [hfun]

/-- C2 counterexample: with a probe oracle that fails on every candidate of
the sole entity, the app-info list marks it unresolved (it is absent), yet
the fetch phase still issues — and here completes — a page request for that
very entity, refuting its exclusion from the fetch phase. -/
theorem unresolved_entity_still_fetched :
    (scrape_all_banks (fun _ => none)
        (fun _ _ _ => some ([sampleReview], none))
        (fun _ => "Commercial Bank of Ethiopia") 0
        [("cbe", "com.cbe.mobile")] 400 3 0).1 = []
    ∧ Event.fetch "com.cbe.mobile" 0 true 0
        ∈ (scrape_all_banks (fun _ => none)
            (fun _ _ _ => some ([sampleReview], none))
            (fun _ => "Commercial Bank of Ethiopia") 0
            [("cbe", "com.cbe.mobile")] 400 3 0).2.2.1 := by
  decide

/-- C2 amended: a probe failure only omits the entity's metadata row from
the app-info list; the fetch phase still issues a first-attempt page request
for every configured entity (whose identifier comes from the static
configuration), independent of probe outcomes, and the run continues for all
entities. -/
theorem probe_failure_only_skips_metadata (probe : ProbeOracle) (fetch : FetchOracle)
    (names : String → String) (now : Nat) (banks : List (String × String))
    (reviews_per_bank max_retries t : Nat) (hmr : 0 < max_retries) :
    (scrape_all_banks probe fetch names now banks reviews_per_bank max_retries t).1
      = banks.filterMap (fun b => (get_app_info probe b.2).map (app_info_row names b.1))
    ∧ ∀ b ∈ banks, ∃ ok u, Event.fetch b.2 0 ok u
        ∈ (scrape_all_banks probe fetch names now banks reviews_per_bank max_retries t).2.2.1 := by
  constructor
  · exact appInfoPhase_infos probe names banks t
  · intro b hb
    obtain ⟨ok, u, hmem⟩ := reviewPhase_fetch_mem fetch names now reviews_per_bank
      max_retries hmr banks (appInfoPhase probe names banks t).2.2 b hb
    refine ⟨ok, u, ?_⟩
    simp only [scrape_all_banks, List.mem_append]
    exact Or.inr hmem

/-- Witness for the amended C2 theorem: the sole entity's probe fails, its
metadata list is empty, and a page request for it is still issued. -/
theorem probe_failure_only_skips_metadata_witness :
    (scrape_all_banks (fun _ => none)
        (fun _ _ _ => some ([sampleReview], none)) (fun _ => "B") 0
        [("cbe", "a1")] 400 1 0).1
      = [("cbe", "a1")].filterMap (fun b =>
          (get_app_info (fun _ => none) b.2).map (app_info_row (fun _ => "B") b.1))
    ∧ ∃ ok u, Event.fetch "a1" 0 ok u
        ∈ (scrape_all_banks (fun _ => none)
            (fun _ _ _ => some ([sampleReview], none)) (fun _ => "B") 0
            [("cbe", "a1")] 400 1 0).2.2.1 := by
  have h := probe_failure_only_skips_metadata (fun _ => none)
    (fun _ _ _ => some ([sampleReview], none)) (fun _ => "B") 0
    [("cbe", "a1")] 400 1 0 (by decide)
  exact ⟨h.1, h.2 ("cbe", "a1") (by decide)⟩

/-- C7 (confirmed): with distinct bank codes, the slice of the final merged
collection belonging to one entity equals that entity's own contribution —
computed from the fetch oracle's answers for that entity's app id alone —
so another entity's total failure (probe failure or all fetch attempts
failing) neither removes nor alters it, and any two runs whose upstream
behaviour agrees on this entity's app id give it identical results. -/
theorem entity_results_isolated (probe : ProbeOracle) (fetch : FetchOracle)
    (names : String → String) (now : Nat) (banks : List (String × String))
    (reviews_per_bank max_retries t : Nat) (bank_code app_id : String)
    (hmem : (bank_code, app_id) ∈ banks)
    (hnd : (banks.map Prod.fst).Nodup) :
    ((scrape_all_banks probe fetch names now banks reviews_per_bank max_retries t).2.1.filter
        (fun r => r.bank_code == bank_code))
      = bank_records fetch names now reviews_per_bank max_retries (bank_code, app_id)
    ∧ ∀ (probe2 : ProbeOracle) (fetch2 : FetchOracle),
        (∀ c a, fetch2 app_id c a = fetch app_id c a) →
        ((scrape_all_banks probe2 fetch2 names now banks reviews_per_bank max_retries t).2.1.filter
            (fun r => r.bank_code == bank_code))
          = ((scrape_all_banks probe fetch names now banks reviews_per_bank max_retries t).2.1.filter
              (fun r => r.bank_code == bank_code)) := by
  have main : ∀ (pr : ProbeOracle) (fe : FetchOracle),
      ((scrape_all_banks pr fe names now banks reviews_per_bank max_retries t).2.1.filter
        (fun r => r.bank_code == bank_code))
      = bank_records fe names now reviews_per_bank max_retries (bank_code, app_id) := by
    intro pr fe
    simp only [scrape_all_banks]
    rw [ite_isEmpty_eq, reviewPhase_records]
    exact filter_flatten_bank_records fe names now reviews_per_bank max_retries
      bank_code app_id banks hmem hnd
  refine ⟨main probe fetch, ?_⟩
  intro probe2 fetch2 hagree
  have hfn : (fun attempt => fetch2 app_id reviews_per_bank attempt)
      = (fun attempt => fetch app_id reviews_per_bank attempt) :=
    funext fun a => hagree reviews_per_bank a
  have hbr : bank_records fetch2 names now reviews_per_bank max_retries (bank_code, app_id)
      = bank_records fetch names now reviews_per_bank max_retries (bank_code, app_id) := by
    unfold bank_records scrape_reviews
    rw [hfn]
  rw [main probe2 fetch2, hbr, main probe fetch]

/-- Witness for the C7 theorem: the first entity fails completely (probe and
every fetch attempt), the second entity's slice still equals its own
contribution. -/
theorem entity_results_isolated_witness :
    ((scrape_all_banks (fun _ => none)
        (fun a _ _ => if a == "a2" then some ([sampleReview], none) else none)
        (fun _ => "B") 0 [("cbe", "a1"), ("awash", "a2")] 400 2 0).2.1.filter
        (fun r => r.bank_code == "awash"))
      = bank_records (fun a _ _ => if a == "a2" then some ([sampleReview], none) else none)
          (fun _ => "B") 0 400 2 ("awash", "a2") := by
  have h := entity_results_isolated (fun _ => none)
    (fun a _ _ => if a == "a2" then some ([sampleReview], none) else none)
    (fun _ => "B") 0 [("cbe", "a1"), ("awash", "a2")] 400 2 0 "awash" "a2"
    (by decide) (by decide)
  exact h.1

/-- C4 counterexample: in a run over two entities whose probes both succeed,
the two app-info calls are issued back to back with zero elapsed time
between them — no shared minimum-interval gate exists, so even a 1-second
floor between consecutive successful upstream calls is violated. -/
theorem consecutive_success_calls_zero_gap :
    ¬ minGapOK 1 ((scrape_all_banks
        (fun _ => some ⟨none, none, none, none, none⟩)
        (fun _ _ _ => some ([], none)) (fun _ => "B") 0
        [("cbe", "a1"), ("awash", "a2")] 400 3 0).2.2.1) := by
  intro h
  have hst : successTimes ((scrape_all_banks
      (fun _ => some ⟨none, none, none, none, none⟩)
      (fun _ _ _ => some ([], none)) (fun _ => "B") 0
      [("cbe", "a1"), ("awash", "a2")] 400 3 0).2.2.1) = [0, 0, 0, 2] := by
    decide
  rw [minGapOK, hst, List.chain'_cons] at h
  exact absurd h.1 (by omega)

/-- C4 amended: the only pacing in the run is the fixed 2-second sleep
executed after each bank of the review phase — within that phase, every
event of a later bank happens at least 2 seconds after every event of an
earlier bank's fetching, while the app-info probes of phase 1 are issued
with no delay at all. -/
theorem fixed_interbank_sleep (fetch : FetchOracle) (names : String → String)
    (now reviews_per_bank max_retries t : Nat) (bank_code app_id : String)
    (rest : List (String × String)) :
    (reviewPhase fetch names now reviews_per_bank max_retries
        ((bank_code, app_id) :: rest) t).2.1
      = (scrape_reviews fetch app_id reviews_per_bank max_retries t).2.1
        ++ Event.sleep 2 (scrape_reviews fetch app_id reviews_per_bank max_retries t).2.2
          :: (reviewPhase fetch names now reviews_per_bank max_retries rest
              ((scrape_reviews fetch app_id reviews_per_bank max_retries t).2.2 + 2)).2.1
    ∧ ∀ e1 ∈ (scrape_reviews fetch app_id reviews_per_bank max_retries t).2.1,
      ∀ e2 ∈ (reviewPhase fetch names now reviews_per_bank max_retries rest
          ((scrape_reviews fetch app_id reviews_per_bank max_retries t).2.2 + 2)).2.1,
        timeOf e1 + 2 ≤ timeOf e2 := by
  constructor
  · rfl
  · intro e1 he1 e2 he2
    simp only [scrape_reviews] at he1
    have h1 := (scrapeLoop_time_bounds _ app_id 0 max_retries t e1 he1).2
    have h2 := reviewPhase_time_lb fetch names now reviews_per_bank max_retries rest
      ((scrape_reviews fetch app_id reviews_per_bank max_retries t).2.2 + 2) e2 he2
    simp only [scrape_reviews] at h2
    omega

/-- Witness for the amended C4 theorem: with two banks and an immediately
successful oracle, the second bank's page request happens 2 seconds after
the first bank's. -/
theorem fixed_interbank_sleep_witness :
    timeOf (Event.fetch "a1" 0 true 0) + 2 ≤ timeOf (Event.fetch "a2" 0 true 2) := by
  have h := fixed_interbank_sleep (fun _ _ _ => some ([], none)) (fun _ => "B")
    0 400 3 0 "cbe" "a1" [("awash", "a2")]
  exact h.2 (Event.fetch "a1" 0 true 0) (by decide) (Event.fetch "a2" 0 true 2) (by decide)

/-- C6 (confirmed, spec-modelled): the quality gate returns a boolean plus a
metrics map and aborts nothing; when the missing-text percentage exceeds the
configured maximum it reports failure together with the computed percentage,
and the data-collection phase still returns all collected records. -/
theorem quality_gate_reports_failure (banks : List String) (records : List Record)
    (min_reviews : Nat) (max_missing_pct : ℚ)
    (h : max_missing_pct < missing_text_pct records) :
    (validate_data_quality banks records min_reviews max_missing_pct).1 = false
    ∧ (validate_data_quality banks records min_reviews
        max_missing_pct).2.missing_text_percentage = missing_text_pct records
    ∧ (validate_data_quality banks records min_reviews max_missing_pct).2.passed = false
    ∧ (run_data_collection_phase banks records min_reviews max_missing_pct).1 = records := by
  have hnot : ¬ (min_reviews ≤ records.length
      ∧ missing_text_pct records ≤ max_missing_pct) := by
    rintro ⟨-, h2⟩
    exact absurd h (not_lt.2 h2)
  refine ⟨?_, rfl, ?_, rfl⟩
  · simp only [validate_data_quality]
    exact decide_eq_false hnot
  · simp only [validate_data_quality]
    exact decide_eq_false hnot

/-- Witness for the C6 theorem: 3 of 25 records lack text (12 percent) with
a 10 percent maximum — the gate reports failure with percentage 12 and the
phase returns all 25 records. -/
theorem quality_gate_reports_failure_witness :
    (validate_data_quality ["cbe"] sampleQGRecords 5 10).1 = false
    ∧ (validate_data_quality ["cbe"] sampleQGRecords 5 10).2.missing_text_percentage = 12
    ∧ (run_data_collection_phase ["cbe"] sampleQGRecords 5 10).1 = sampleQGRecords := by
  have hc : missingCount sampleQGRecords = 3 := by decide
  have hl : sampleQGRecords.length = 25 := by decide
  have hpct : missing_text_pct sampleQGRecords = 12 := by
    unfold missing_text_pct
    rw [hc, hl]
    norm_num
  have h := quality_gate_reports_failure ["cbe"] sampleQGRecords 5 10
    (by rw [hpct]; norm_num)
  exact ⟨h.1, by rw [h.2.1, hpct], h.2.2.2⟩
